import Mathlib

/-!
Verification development for the MyAICopilot streaming client core.

Shallow embedding of the resilient streaming client pipeline:
the circuit breaker, the API client operations (testConnection,
createCompletion, createChatCompletion), the SSE incremental parser,
the TTL completion cache, signal merging, the completion pipeline's
error handling, and the debounce timer of the inline completion
provider.  Each definition is translated from the TypeScript source
file named in its doc comment.
-/

namespace MyAICopilot

/-! ## Circuit breaker (src/src/api/client.ts, lines 11-16) -/

/-- The mutable field bag `circuitBreaker` of `APIClient`.  Timestamps are
naturals (milliseconds, as returned by `Date.now()`). -/
structure CircuitBreaker where
  failures : Nat
  cooldownUntil : Nat
  maxFailures : Nat
  cooldownMs : Nat
  deriving Repr, DecidableEq

/-- The initializer of the `circuitBreaker` field: literal constants in the
source, not read from configuration. -/
def initCircuitBreaker : CircuitBreaker :=
  { failures := 0, cooldownUntil := 0, maxFailures := 5, cooldownMs := 60000 }

/-- The guard of `handleFailure`: `status >= 500 || status === 429`. -/
def qualifyingFailure (status : Nat) : Bool :=
  (500 ≤ status) || (status == 429)

/-- `handleFailure(status)` from src/src/api/client.ts lines 198-212:
increments the failure counter on a qualifying failure and, once the counter
reaches `maxFailures`, sets `cooldownUntil := Date.now() + cooldownMs`.
`now` stands for `Date.now()`. -/
def handleFailure (cb : CircuitBreaker) (status now : Nat) : CircuitBreaker :=
  if qualifyingFailure status then
    let f := cb.failures + 1
    if cb.maxFailures ≤ f then
      { cb with failures := f, cooldownUntil := now + cb.cooldownMs }
    else
      { cb with failures := f }
  else cb

/-- `checkCircuitBreaker` (lines 214-218) throws exactly when
`Date.now() < cooldownUntil`. -/
def checkCircuitBreakerRejects (cb : CircuitBreaker) (now : Nat) : Bool :=
  decide (now < cb.cooldownUntil)

/-! ## API client operations (src/src/api/client.ts) -/

/-- The configuration values the client reads while issuing a request
(`api.baseUrl`, `api.model`).  Supplied by the configuration provider. -/
structure Config where
  baseUrl : String
  model : String
  deriving Repr, DecidableEq

/-- The fixed User-Agent string from `getHeaders`. -/
def userAgent : String := "MyAICopilot/0.1.0"

/-- `getHeaders(apiKey)` (lines 180-186). -/
def getHeaders (apiKey : String) : List (String × String) :=
  [("Content-Type", "application/json"),
   ("Authorization", "Bearer " ++ apiKey),
   ("User-Agent", userAgent)]

/-- An HTTP request as issued by `fetch`: method, URL and headers.  The JSON
body is irrelevant to the claims and omitted. -/
structure Request where
  method : String
  url : String
  headers : List (String × String)
  deriving Repr, DecidableEq

/-- An HTTP response: its status code and its body, delivered as the chunk
sequence the streaming reader observes. -/
structure HttpResponse where
  status : Nat
  bodyChunks : List (List Char)
  deriving Repr, DecidableEq

/-- `response.ok` per the fetch specification: status in [200, 300). -/
def responseOk (r : HttpResponse) : Bool :=
  (200 ≤ r.status) && (r.status < 300)

/-! ## JSON values and a model of `JSON.parse` (used by `parseSSE`) -/

/-- A parsed JSON value.  Numbers keep their lexeme: `parseSSE` never reads
a numeric field, only the nested string `choices[0].delta.content`. -/
inductive Json where
  | null
  | bool (b : Bool)
  | num (lexeme : List Char)
  | str (s : List Char)
  | arr (elems : List Json)
  | obj (fields : List (List Char × Json))
  deriving Repr, BEq

/-- The `{` character (code 123). -/
def lbrace : Char := Char.ofNat 123

/-- The `}` character (code 125). -/
def rbrace : Char := Char.ofNat 125

/-- Skip JSON insignificant whitespace. -/
def skipWs : List Char → List Char
  | [] => []
  | c :: r =>
    if c = ' ' ∨ c = '\t' ∨ c = '\n' ∨ c = '\r' then skipWs r else c :: r

def parseHexDigit (c : Char) : Option Nat :=
  if '0' ≤ c ∧ c ≤ '9' then some (c.toNat - '0'.toNat)
  else if 'a' ≤ c ∧ c ≤ 'f' then some (c.toNat - 'a'.toNat + 10)
  else if 'A' ≤ c ∧ c ≤ 'F' then some (c.toNat - 'A'.toNat + 10)
  else none

/-- Body of a JSON string after the opening quote: returns the decoded
content and the remainder after the closing quote. -/
def parseStringBody : Nat → List Char → Option (List Char × List Char)
  | 0, _ => none
  | _, [] => none
  | fuel + 1, c :: r =>
    if c = '\"' then some ([], r)
    else if c = '\\' then
      match r with
      | [] => none
      | e :: r2 =>
        if e = '\"' ∨ e = '\\' ∨ e = '/' then
          (parseStringBody fuel r2).map (fun p => (e :: p.1, p.2))
        else if e = 'n' then
          (parseStringBody fuel r2).map (fun p => ('\n' :: p.1, p.2))
        else if e = 't' then
          (parseStringBody fuel r2).map (fun p => ('\t' :: p.1, p.2))
        else if e = 'r' then
          (parseStringBody fuel r2).map (fun p => ('\r' :: p.1, p.2))
        else if e = 'b' then
          (parseStringBody fuel r2).map (fun p => (Char.ofNat 8 :: p.1, p.2))
        else if e = 'f' then
          (parseStringBody fuel r2).map (fun p => (Char.ofNat 12 :: p.1, p.2))
        else if e = 'u' then
          match r2 with
          | h1 :: h2 :: h3 :: h4 :: r3 =>
            match parseHexDigit h1, parseHexDigit h2, parseHexDigit h3,
                parseHexDigit h4 with
            | some a, some b, some c3, some d =>
              (parseStringBody fuel r3).map
                (fun p => (Char.ofNat (((a * 16 + b) * 16 + c3) * 16 + d) :: p.1, p.2))
            | _, _, _, _ => none
          | _ => none
        else none
    else (parseStringBody fuel r).map (fun p => (c :: p.1, p.2))

def isDigit (c : Char) : Bool := ('0' ≤ c) && (c ≤ '9')

def takeDigits : List Char → List Char × List Char
  | [] => ([], [])
  | c :: r =>
    if isDigit c then
      let p := takeDigits r
      (c :: p.1, p.2)
    else ([], c :: r)

/-- A JSON number lexeme (slightly lenient on leading zeros, which the
claims never exercise). -/
def parseNumberBody (l : List Char) : Option (List Char × List Char) :=
  let p0 : List Char × List Char :=
    match l with
    | '-' :: r => (['-'], r)
    | _ => ([], l)
  let pInt := takeDigits p0.2
  if pInt.1 = [] then none
  else
    let pFrac : List Char × List Char :=
      match pInt.2 with
      | '.' :: r =>
        let d := takeDigits r
        if d.1 = [] then ([], pInt.2) else ('.' :: d.1, d.2)
      | _ => ([], pInt.2)
    let pExp : List Char × List Char :=
      match pFrac.2 with
      | e :: r =>
        if e = 'e' ∨ e = 'E' then
          match r with
          | s :: r2 =>
            if s = '+' ∨ s = '-' then
              let d := takeDigits r2
              if d.1 = [] then ([], pFrac.2) else (e :: s :: d.1, d.2)
            else
              let d := takeDigits r
              if d.1 = [] then ([], pFrac.2) else (e :: d.1, d.2)
          | [] => ([], pFrac.2)
        else ([], pFrac.2)
      | [] => ([], pFrac.2)
    some (p0.1 ++ pInt.1 ++ pFrac.1 ++ pExp.1, pExp.2)

mutual

/-- Recursive-descent JSON value parser, fuelled for termination. -/
def parseValue : Nat → List Char → Option (Json × List Char)
  | 0, _ => none
  | fuel + 1, l =>
    match skipWs l with
    | [] => none
    | c :: r =>
      if c = '\"' then
        (parseStringBody fuel r).map (fun p => (Json.str p.1, p.2))
      else if c = lbrace then
        match skipWs r with
        | c2 :: r2 =>
          if c2 = rbrace then some (Json.obj [], r2)
          else parseObjFields fuel (c2 :: r2) []
        | [] => none
      else if c = '[' then
        match skipWs r with
        | c2 :: r2 =>
          if c2 = ']' then some (Json.arr [], r2)
          else parseArrElems fuel (c2 :: r2) []
        | [] => none
      else if c = 't' then
        match r with
        | 'r' :: 'u' :: 'e' :: rest => some (Json.bool true, rest)
        | _ => none
      else if c = 'f' then
        match r with
        | 'a' :: 'l' :: 's' :: 'e' :: rest => some (Json.bool false, rest)
        | _ => none
      else if c = 'n' then
        match r with
        | 'u' :: 'l' :: 'l' :: rest => some (Json.null, rest)
        | _ => none
      else
        (parseNumberBody (c :: r)).map (fun p => (Json.num p.1, p.2))

def parseArrElems : Nat → List Char → List Json → Option (Json × List Char)
  | 0, _, _ => none
  | fuel + 1, l, acc =>
    match parseValue fuel l with
    | none => none
    | some (v, rest) =>
      match skipWs rest with
      | ',' :: r2 => parseArrElems fuel r2 (acc ++ [v])
      | ']' :: r2 => some (Json.arr (acc ++ [v]), r2)
      | _ => none

def parseObjFields : Nat → List Char →
    List (List Char × Json) → Option (Json × List Char)
  | 0, _, _ => none
  | fuel + 1, l, acc =>
    match skipWs l with
    | c :: r =>
      if c = '\"' then
        match parseStringBody fuel r with
        | none => none
        | some (key, rest) =>
          match skipWs rest with
          | ':' :: r2 =>
            match parseValue fuel r2 with
            | none => none
            | some (v, rest2) =>
              match skipWs rest2 with
              | ',' :: r3 => parseObjFields fuel r3 (acc ++ [(key, v)])
              | c4 :: r3 =>
                if c4 = rbrace then some (Json.obj (acc ++ [(key, v)]), r3)
                else none
              | [] => none
          | _ => none
      else none
    | [] => none

end

/-- `JSON.parse`: the whole input must be one JSON value (with surrounding
whitespace); anything else throws, modelled as `none`.  The fuel bound is
ample: every two fuel units consume at least one character. -/
def parseJson (l : List Char) : Option Json :=
  match parseValue (2 * l.length + 2) l with
  | some p => if skipWs p.2 = [] then some p.1 else none
  | none => none

/-- Last-wins field lookup, matching how `JSON.parse` builds a JS object
when keys repeat. -/
def lookupField (fields : List (List Char × Json)) (key : List Char) :
    Option Json :=
  (fields.reverse.find? (fun p => p.1 == key)).map Prod.snd

/-- `parsed.choices?.[0]?.delta?.content || ""` from `parseSSE` (line 167).
Non-string content (never produced by the wire contract) is treated as
absent. -/
def extractContent (j : Json) : List Char :=
  match j with
  | .obj fields =>
    match lookupField fields "choices".toList with
    | some (.arr (first :: _)) =>
      match first with
      | .obj f2 =>
        match lookupField f2 "delta".toList with
        | some (.obj f3) =>
          match lookupField f3 "content".toList with
          | some (.str s) => s
          | _ => []
        | _ => []
      | _ => []
    | _ => []
  | _ => []

/-! ## SSE incremental parser (src/src/api/client.ts, lines 134-178) -/

/-- Prepend a character to the first segment of a split result. -/
def consHead (c : Char) : List (List Char) → List (List Char)
  | [] => [[c]]
  | l :: ls => (c :: l) :: ls

/-- `text.split(/\r?\n/)`: the segments between separators (`\n` or
`\r\n`), in order; always nonempty; the last element is the trailing
(possibly incomplete) segment.  A lone `\r` not followed by `\n` is
ordinary text. -/
def splitAll : List Char → List (List Char)
  | [] => [[]]
  | c :: r =>
    if c = '\n' then [] :: splitAll r
    else if c = '\r' then
      match r with
      | [] => consHead c (splitAll [])
      | c2 :: r2 =>
        if c2 = '\n' then [] :: splitAll r2
        else consHead c (splitAll (c2 :: r2))
    else consHead c (splitAll r)

/-- State of the SSE decoding loop: the carry-over buffer, the fragments
yielded so far, and whether the generator has returned at `[DONE]`. -/
structure SSEState where
  buffer : List Char
  outputs : List (List Char)
  finished : Bool
  deriving Repr, DecidableEq

def dataPrefix : List Char := "data: ".toList

def doneSentinel : List Char := "[DONE]".toList

/-- One complete line of the SSE loop body (lines 160-173): lines starting
with `data: ` are inspected; `[DONE]` returns from the generator (so every
later line is ignored — `finished` short-circuits); otherwise the payload
is JSON-parsed and a non-empty `choices[0].delta.content` is yielded; a
malformed payload is logged and skipped. -/
def processLine (st : SSEState) (line : List Char) : SSEState :=
  if st.finished then st
  else if line.take 6 = dataPrefix then
    let data := line.drop 6
    if data = doneSentinel then { st with finished := true }
    else
      match parseJson data with
      | some j =>
        let content := extractContent j
        if content = [] then st
        else { st with outputs := st.outputs ++ [content] }
      | none => st
  else st

/-- The final segment of a split: `lines.pop() || ""` (the split result is
never empty, so `pop` always yields its last element). -/
def lastSeg : List (List Char) → List Char
  | [] => []
  | [x] => x
  | _ :: x :: xs => lastSeg (x :: xs)

/-- One reader chunk (lines 153-173): append the decoded chunk to the
carry-over buffer, split on line boundaries, retain the final (possibly
incomplete) segment as the new buffer, then process each complete line. -/
def feedChunk (st : SSEState) (chunk : List Char) : SSEState :=
  if st.finished then st
  else
    let parts := splitAll (st.buffer ++ chunk)
    parts.dropLast.foldl processLine { st with buffer := lastSeg parts }

def initSSEState : SSEState := { buffer := [], outputs := [], finished := false }

/-- `parseSSE` over a whole chunked response body. -/
def runSSE (chunks : List (List Char)) : SSEState :=
  chunks.foldl feedChunk initSSEState

/-- The three-record SSE body of the chunk-boundary property: two content
deltas ("ab", "cd") and the `[DONE]` sentinel, each record followed by a
blank line. -/
def sseBody : String :=
  "data: \x7b\"choices\":[\x7b\"delta\":\x7b\"content\":\"ab\"\x7d\x7d]\x7d\n\ndata: \x7b\"choices\":[\x7b\"delta\":\x7b\"content\":\"cd\"\x7d\x7d]\x7d\n\ndata: [DONE]\n\n"

/-- Observational equivalence of SSE states: same fragments yielded, same
termination status, and the same carry-over buffer while still live (after
`[DONE]` the buffer is dead — it is never read again). -/
def sseEquiv (s1 s2 : SSEState) : Prop :=
  s1.outputs = s2.outputs ∧ s1.finished = s2.finished ∧
    (s1.finished = false → s1.buffer = s2.buffer)

/-- Strip one trailing carriage return — the residue of a `\r\n` separator
whose `\n` has just arrived. -/
def stripCR : List Char → List Char
  | [] => []
  | c :: r => if r = [] then (if c = '\r' then [] else [c]) else c :: stripCR r

/-- Character-granular reformulation of the chunk loop; proof device for
chunk-boundary independence, not itself part of the source model. -/
def charStep (st : SSEState) (ch : Char) : SSEState :=
  if st.finished then st
  else if ch = '\n' then
    let st2 := processLine st (stripCR st.buffer)
    { st2 with buffer := [] }
  else { st with buffer := st.buffer ++ [ch] }

/-- The typed failures an `APIClient` operation can surface. -/
inductive ClientError where
  /-- "Service is cooling down due to repeated failures" -/
  | circuitOpen
  /-- "API key not configured …" thrown by `getApiKey` -/
  | missingApiKey
  /-- "API Error {status}: …" on a non-ok response -/
  | apiError (status : Nat)
  /-- "Request timeout or cancelled": `createCompletion` maps `AbortError` to this -/
  | timeoutOrCancelled
  /-- A raw `AbortError` propagating out of `testConnection` (no catch there) -/
  | abortError
  /-- "HTTP {status}: …" thrown by `testConnection` on a non-ok response -/
  | httpError (status : Nat)
  /-- `response.json()` failed in `testConnection` -/
  | jsonParseError
  deriving Repr, DecidableEq

/-- Outcome of the `fetch` call itself: a response, or an `AbortError`
(timeout fired or a merged signal aborted mid-flight). -/
inductive FetchResult where
  | success (resp : HttpResponse)
  | abortError
  deriving Repr, DecidableEq

/-- Result of one client operation: the value or error returned to the
caller, the circuit-breaker state afterwards, and the network request that
was issued (`none` when the operation failed before any network I/O). -/
structure OpOutcome (α : Type) where
  result : Except ClientError α
  breaker : CircuitBreaker
  request : Option Request
  deriving Repr

/-- `createCompletion` (lines 48-92).  Control flow in source order:
`checkCircuitBreaker` first (fail fast, no network), then `getApiKey`
(fail fast on a missing key), then the POST; a non-ok response is reported
to `handleFailure` and surfaced as an API error; a success resets the
failure counter to 0; an `AbortError` from fetch is mapped to the
"Request timeout or cancelled" error.  `now` stands for `Date.now()`. -/
def createCompletion (cb : CircuitBreaker) (now : Nat) (apiKey : Option String)
    (cfg : Config) (fr : FetchResult) : OpOutcome HttpResponse :=
  if now < cb.cooldownUntil then
    { result := .error .circuitOpen, breaker := cb, request := none }
  else
    match apiKey with
    | none => { result := .error .missingApiKey, breaker := cb, request := none }
    | some key =>
      let req : Request :=
        { method := "POST", url := cfg.baseUrl ++ "/completions",
          headers := getHeaders key }
      match fr with
      | .abortError =>
        { result := .error .timeoutOrCancelled, breaker := cb, request := some req }
      | .success resp =>
        if responseOk resp then
          { result := .ok resp, breaker := { cb with failures := 0 },
            request := some req }
        else
          { result := .error (.apiError resp.status),
            breaker := handleFailure cb resp.status now, request := some req }

/-- `createChatCompletion` (lines 94-132).  Same gate order as
`createCompletion` (`checkCircuitBreaker`, then `getApiKey`, then the
POST); a non-ok response is reported to `handleFailure`; a success resets
the failure counter and streams the body through `parseSSE`.  There is no
catch clause, so an `AbortError` from fetch propagates raw. -/
def createChatCompletion (cb : CircuitBreaker) (now : Nat)
    (apiKey : Option String) (cfg : Config) (fr : FetchResult) :
    OpOutcome SSEState :=
  if now < cb.cooldownUntil then
    { result := .error .circuitOpen, breaker := cb, request := none }
  else
    match apiKey with
    | none => { result := .error .missingApiKey, breaker := cb, request := none }
    | some key =>
      let req : Request :=
        { method := "POST", url := cfg.baseUrl ++ "/chat/completions",
          headers := getHeaders key }
      match fr with
      | .abortError =>
        { result := .error .abortError, breaker := cb, request := some req }
      | .success resp =>
        if responseOk resp then
          { result := .ok (runSSE resp.bodyChunks),
            breaker := { cb with failures := 0 }, request := some req }
        else
          { result := .error (.apiError resp.status),
            breaker := handleFailure cb resp.status now, request := some req }

/-- `testConnection` (lines 23-46).  `getApiKey` first, then a GET against
`{baseUrl}/models` with only the Authorization header (it does not use
`getHeaders`); a non-ok status throws; then the body must parse as JSON
(`jsonValid`).  It never consults `checkCircuitBreaker` and never calls
`handleFailure`: the breaker state passes through untouched. -/
def testConnection (cb : CircuitBreaker) (apiKey : Option String)
    (cfg : Config) (fr : FetchResult) (jsonValid : Bool) : OpOutcome Unit :=
  match apiKey with
  | none => { result := .error .missingApiKey, breaker := cb, request := none }
  | some key =>
    let req : Request :=
      { method := "GET", url := cfg.baseUrl ++ "/models",
        headers := [("Authorization", "Bearer " ++ key)] }
    match fr with
    | .abortError =>
      { result := .error .abortError, breaker := cb, request := some req }
    | .success resp =>
      if responseOk resp then
        if jsonValid then
          { result := .ok (), breaker := cb, request := some req }
        else
          { result := .error .jsonParseError, breaker := cb, request := some req }
      else
        { result := .error (.httpError resp.status), breaker := cb,
          request := some req }

/-! ## TTL cache (src/unnamed/part_001, `CacheManager`) -/

/-- Modelled from the spec: the completion-cache key-namespace prefix
`CACHE_PREFIX` lives in `src/constants.ts`, which is not included under
src/; its concrete value is immaterial to the claims, only that every
completion entry is stored under `CACHE_PREFIX + key`. -/
def CACHE_PREFIX : String := "completionCache:"

/-- `CompletionCacheEntry` from src/src/types/index.ts: the cached inline
completion item (abstracted to its text payload) and its expiry
timestamp. -/
structure CompletionCacheEntry where
  item : String
  expiry : Nat
  deriving Repr, DecidableEq

/-- The workspace-state backing store of the cache manager. -/
def CacheStore : Type := String → Option CompletionCacheEntry

/-- `CacheManager.getCompletion` (lines 15-29): look up
`CACHE_PREFIX + key`; a missing entry yields `undefined`; an entry with
`Date.now() > entry.expiry` is lazily deleted and yields `undefined`;
otherwise the stored item is returned.  Returns the result together with
the store afterwards. -/
def getCompletion (store : CacheStore) (key : String) (now : Nat) :
    Option String × CacheStore :=
  match store (CACHE_PREFIX ++ key) with
  | none => (none, store)
  | some entry =>
    if entry.expiry < now then
      (none, fun k => if k = CACHE_PREFIX ++ key then none else store k)
    else (some entry.item, store)

/-- `CacheManager.setCompletion` (lines 34-47): unconditionally overwrite
`CACHE_PREFIX + key` with `{ item, expiry := Date.now() + ttlSeconds * 1000 }`. -/
def setCompletion (store : CacheStore) (key : String) (item : String)
    (ttlSeconds now : Nat) : CacheStore :=
  fun k =>
    if k = CACHE_PREFIX ++ key then
      some { item := item, expiry := now + ttlSeconds * 1000 }
    else store k

/-! ## Signal merging (src/src/api/client.ts, lines 220-231) -/

/-- An input to `mergeSignals`, characterised by what the merged
controller can observe of it: whether it was already aborted when the
listener was registered, and whether it fires an abort event afterwards.
An `abort` event listener added to an already-aborted signal is never
invoked (the event fired in the past), and an abort is monotonic: a signal
fires at most once. -/
structure SignalBehavior where
  preAborted : Bool
  firesLater : Bool
  deriving Repr, DecidableEq

/-- Whether the signal is ever aborted at all. -/
def signalAborted (s : SignalBehavior) : Bool :=
  s.preAborted || s.firesLater

/-- Whether the signal returned by `mergeSignals(signal1, signal2)` ends up
aborted: the inner controller aborts exactly when one of the two `abort`
listeners runs, which happens only on an abort event fired after
registration. -/
def mergedSignalAborted (s1 s2 : SignalBehavior) : Bool :=
  (!s1.preAborted && s1.firesLater) || (!s2.preAborted && s2.firesLater)

/-! ## Completion pipeline error handling
(src/src/providers/completionProvider.ts, `fetchCompletion`) -/

/-- A thrown JavaScript `Error`, as inspected by the catch clause. -/
structure JsError where
  name : String
  message : String
  deriving Repr, DecidableEq

/-- Whether `pre` is a prefix of `l`. -/
def listStartsWith : List Char → List Char → Bool
  | [], _ => true
  | _ :: _, [] => false
  | p :: ps, c :: cs => (p = c) && listStartsWith ps cs

/-- `String.prototype.includes`: the needle occurs contiguously. -/
def listContains (needle : List Char) : List Char → Bool
  | [] => listStartsWith needle []
  | c :: cs => listStartsWith needle (c :: cs) || listContains needle cs

/-- The cancellation test of the catch clause (line 121):
`err.name === "AbortError" || err.message.includes("cancelled")`. -/
def isCancellation (e : JsError) : Bool :=
  (e.name == "AbortError") || listContains "cancelled".toList e.message.toList

/-- What `fetchCompletion` hands back to the editor: the item list and
whether an error was logged. -/
structure FetchOutcome where
  items : List String
  loggedError : Bool
  deriving Repr, DecidableEq

/-- `fetchCompletion` (lines 59-128), abstracted over the response-cleanup
function (`cleanResponse`, a JS-regex transformation) and over the already
resolved cache lookup and API call: a cache hit returns immediately; a
successful fetch is cleaned and an empty cleaned text yields no
suggestion; a failure yields an empty result — silently for a
cancellation, logged for anything else. -/
def fetchCompletion (clean : String → String) (cached : Option String)
    (apiResult : Except JsError String) : FetchOutcome :=
  match cached with
  | some item => { items := [item], loggedError := false }
  | none =>
    match apiResult with
    | .ok suggestion =>
      let cleaned := clean suggestion
      if cleaned.trim = "" then { items := [], loggedError := false }
      else { items := [cleaned], loggedError := false }
    | .error e =>
      if isCancellation e then { items := [], loggedError := false }
      else { items := [], loggedError := true }

/-! ## Debounce timer (src/src/providers/completionProvider.ts,
`provideInlineCompletionItems`, lines 42-57) -/

/-- Events observable by one provider instance: an automatic trigger
(carrying the identity of the promise/timer it creates) or the firing of
the armed timer. -/
inductive DebounceEvent where
  | trigger (id : Nat)
  | timerFire
  deriving Repr, DecidableEq

/-- The provider's single timer slot, plus which promises have settled.
The promise created by `trigger id` settles exactly when its timeout
callback runs — the callback is the only holder of its `resolve`, and the
executor never rejects. -/
structure DebounceState where
  pendingTimer : Option Nat
  settled : List Nat
  deriving Repr, DecidableEq

/-- An automatic trigger clears any pending timer (`clearTimeout`) and
arms its own (`this.debounceTimer = setTimeout(...)`); a timer that is
still armed when it fires runs its callback, settling its promise. -/
def debounceStep (st : DebounceState) : DebounceEvent → DebounceState
  | .trigger id => { st with pendingTimer := some id }
  | .timerFire =>
    match st.pendingTimer with
    | some id => { pendingTimer := none, settled := id :: st.settled }
    | none => st

def debounceRun (st : DebounceState) (evs : List DebounceEvent) : DebounceState :=
  evs.foldl debounceStep st

/-! # Theorems -/

/-! ## Circuit breaker helper lemmas -/

theorem handleFailure_maxFailures (cb : CircuitBreaker) (status now : Nat) :
    (handleFailure cb status now).maxFailures = cb.maxFailures := by
  unfold handleFailure
  dsimp only
  split_ifs <;> rfl

theorem handleFailure_cooldownMs (cb : CircuitBreaker) (status now : Nat) :
    (handleFailure cb status now).cooldownMs = cb.cooldownMs := by
  unfold handleFailure
  dsimp only
  split_ifs <;> rfl

theorem handleFailure_cooldown_mono (cb : CircuitBreaker) (status now : Nat)
    (h : cb.cooldownUntil ≤ now) :
    cb.cooldownUntil ≤ (handleFailure cb status now).cooldownUntil := by
  unfold handleFailure
  dsimp only
  split_ifs
  · simp only
    omega
  · exact le_refl _
  · exact le_refl _

/-- C7 counterexample: a successful `createCompletion` response leaves a
nonzero `cooldownUntil` untouched — the success path (`client.ts` line 82)
resets only `failures`; nothing in the client ever writes 0 to
`cooldownUntil`. -/
theorem C7_counterexample_success_keeps_cooldown :
    (createCompletion
        { failures := 3, cooldownUntil := 100, maxFailures := 5, cooldownMs := 60000 }
        200 (some "k") { baseUrl := "http://api", model := "m" }
        (.success { status := 200, bodyChunks := [] })).breaker.cooldownUntil = 100 ∧
    ¬ (createCompletion
        { failures := 3, cooldownUntil := 100, maxFailures := 5, cooldownMs := 60000 }
        200 (some "k") { baseUrl := "http://api", model := "m" }
        (.success { status := 200, bodyChunks := [] })).breaker.cooldownUntil = 0 ∧
    (createCompletion
        { failures := 3, cooldownUntil := 100, maxFailures := 5, cooldownMs := 60000 }
        200 (some "k") { baseUrl := "http://api", model := "m" }
        (.success { status := 200, bodyChunks := [] })).breaker.failures = 0 := by
  refine ⟨rfl, by decide, rfl⟩

/-- C7 amended: `cooldownUntil` is non-decreasing across every client
operation — including successful responses, which reset only the failure
counter and leave `cooldownUntil` unchanged (it is never reset to 0). -/
theorem C7_amended_cooldown_monotone (cb : CircuitBreaker) (now : Nat)
    (apiKey : Option String) (cfg : Config) (fr : FetchResult) (jv : Bool) :
    cb.cooldownUntil ≤ (createCompletion cb now apiKey cfg fr).breaker.cooldownUntil ∧
    cb.cooldownUntil ≤ (createChatCompletion cb now apiKey cfg fr).breaker.cooldownUntil ∧
    (testConnection cb apiKey cfg fr jv).breaker.cooldownUntil = cb.cooldownUntil ∧
    (∀ resp : HttpResponse, responseOk resp = true →
      (createCompletion cb now apiKey cfg (.success resp)).breaker.cooldownUntil
        = cb.cooldownUntil) := by
  refine ⟨?_, ?_, ?_, ?_⟩
  · unfold createCompletion
    split_ifs with h
    · exact le_refl _
    · cases apiKey with
      | none => exact le_refl _
      | some key =>
        cases fr with
        | abortError => exact le_refl _
        | success resp =>
          dsimp only
          split_ifs
          · exact le_refl _
          · exact handleFailure_cooldown_mono cb resp.status now (by omega)
  · unfold createChatCompletion
    split_ifs with h
    · exact le_refl _
    · cases apiKey with
      | none => exact le_refl _
      | some key =>
        cases fr with
        | abortError => exact le_refl _
        | success resp =>
          dsimp only
          split_ifs
          · exact le_refl _
          · exact handleFailure_cooldown_mono cb resp.status now (by omega)
  · unfold testConnection
    cases apiKey with
    | none => rfl
    | some key =>
      cases fr with
      | abortError => rfl
      | success resp =>
        dsimp only
        split_ifs <;> rfl
  · intro resp hok
    unfold createCompletion
    split_ifs with h
    · rfl
    · cases apiKey with
      | none => rfl
      | some key =>
        dsimp only
        rw [if_pos hok]

/-- C7 amended, witness: the monotonicity theorem applied at a concrete
state and a concrete successful response. -/
theorem C7_amended_cooldown_monotone_witness :
    100 ≤ (createCompletion
      { failures := 1, cooldownUntil := 100, maxFailures := 5, cooldownMs := 60000 }
      500 (some "k") { baseUrl := "b", model := "m" }
      (.success { status := 503, bodyChunks := [] })).breaker.cooldownUntil ∧
    responseOk { status := 200, bodyChunks := [] } = true ∧
    (createCompletion
      { failures := 1, cooldownUntil := 100, maxFailures := 5, cooldownMs := 60000 }
      500 (some "k") { baseUrl := "b", model := "m" }
      (.success { status := 200, bodyChunks := [] })).breaker.cooldownUntil = 100 :=
  ⟨(C7_amended_cooldown_monotone
      { failures := 1, cooldownUntil := 100, maxFailures := 5, cooldownMs := 60000 }
      500 (some "k") { baseUrl := "b", model := "m" }
      (.success { status := 503, bodyChunks := [] }) true).1,
   by decide,
   (C7_amended_cooldown_monotone
      { failures := 1, cooldownUntil := 100, maxFailures := 5, cooldownMs := 60000 }
      500 (some "k") { baseUrl := "b", model := "m" }
      (.success { status := 200, bodyChunks := [] }) true).2.2.2
     { status := 200, bodyChunks := [] } (by decide)⟩

/-- C8: the breaker threshold and cooldown are fixed constants of the
client instance — `maxFailures = 5`, `cooldownMs = 60000` — preserved by
every operation, and the breaker state resulting from any operation is
independent of the configuration provider's values. -/
theorem C8_breaker_constants_fixed :
    initCircuitBreaker.maxFailures = 5 ∧
    initCircuitBreaker.cooldownMs = 60000 ∧
    (∀ cb status now, (handleFailure cb status now).maxFailures = cb.maxFailures ∧
      (handleFailure cb status now).cooldownMs = cb.cooldownMs) ∧
    (∀ cb now apiKey cfg fr,
      (createCompletion cb now apiKey cfg fr).breaker.maxFailures = cb.maxFailures ∧
      (createCompletion cb now apiKey cfg fr).breaker.cooldownMs = cb.cooldownMs) ∧
    (∀ cb now apiKey cfg fr,
      (createChatCompletion cb now apiKey cfg fr).breaker.maxFailures = cb.maxFailures ∧
      (createChatCompletion cb now apiKey cfg fr).breaker.cooldownMs = cb.cooldownMs) ∧
    (∀ cb apiKey cfg fr jv, (testConnection cb apiKey cfg fr jv).breaker = cb) ∧
    (∀ cb now apiKey cfg cfg' fr,
      (createCompletion cb now apiKey cfg fr).breaker
        = (createCompletion cb now apiKey cfg' fr).breaker ∧
      (createChatCompletion cb now apiKey cfg fr).breaker
        = (createChatCompletion cb now apiKey cfg' fr).breaker) := by
  refine ⟨rfl, rfl, ?_, ?_, ?_, ?_, ?_⟩
  · intro cb status now
    exact ⟨handleFailure_maxFailures cb status now, handleFailure_cooldownMs cb status now⟩
  · intro cb now apiKey cfg fr
    unfold createCompletion
    split_ifs
    · exact ⟨rfl, rfl⟩
    · cases apiKey with
      | none => exact ⟨rfl, rfl⟩
      | some key =>
        cases fr with
        | abortError => exact ⟨rfl, rfl⟩
        | success resp =>
          dsimp only
          split_ifs
          · exact ⟨rfl, rfl⟩
          · exact ⟨handleFailure_maxFailures cb resp.status now,
              handleFailure_cooldownMs cb resp.status now⟩
  · intro cb now apiKey cfg fr
    unfold createChatCompletion
    split_ifs
    · exact ⟨rfl, rfl⟩
    · cases apiKey with
      | none => exact ⟨rfl, rfl⟩
      | some key =>
        cases fr with
        | abortError => exact ⟨rfl, rfl⟩
        | success resp =>
          dsimp only
          split_ifs
          · exact ⟨rfl, rfl⟩
          · exact ⟨handleFailure_maxFailures cb resp.status now,
              handleFailure_cooldownMs cb resp.status now⟩
  · intro cb apiKey cfg fr jv
    unfold testConnection
    cases apiKey with
    | none => rfl
    | some key =>
      cases fr with
      | abortError => rfl
      | success resp =>
        dsimp only
        split_ifs <;> rfl
  · intro cb now apiKey cfg cfg' fr
    constructor
    · unfold createCompletion
      split_ifs
      · rfl
      · cases apiKey with
        | none => rfl
        | some key =>
          cases fr with
          | abortError => rfl
          | success resp =>
            dsimp only
            split_ifs <;> rfl
    · unfold createChatCompletion
      split_ifs
      · rfl
      · cases apiKey with
        | none => rfl
        | some key =>
          cases fr with
          | abortError => rfl
          | success resp =>
            dsimp only
            split_ifs <;> rfl

/-- C9: `testConnection` neither consults nor reports to the circuit
breaker: the breaker state passes through every outcome unchanged, the
result and the issued request are independent of the breaker state (so the
probe proceeds even while the breaker is open), and whenever a key is
present a network request is issued. -/
theorem C9_testConnection_ignores_breaker (cb cb' : CircuitBreaker)
    (apiKey : Option String) (k : String) (cfg : Config) (fr : FetchResult)
    (jv : Bool) :
    (testConnection cb apiKey cfg fr jv).breaker = cb ∧
    (testConnection cb apiKey cfg fr jv).result
      = (testConnection cb' apiKey cfg fr jv).result ∧
    (testConnection cb apiKey cfg fr jv).request
      = (testConnection cb' apiKey cfg fr jv).request ∧
    (testConnection cb (some k) cfg fr jv).request.isSome = true := by
  unfold testConnection
  cases apiKey with
  | none =>
    refine ⟨rfl, rfl, rfl, ?_⟩
    cases fr with
    | abortError => rfl
    | success resp =>
      dsimp only
      split_ifs <;> rfl
  | some key =>
    cases fr with
    | abortError => exact ⟨rfl, rfl, rfl, rfl⟩
    | success resp =>
      dsimp only
      split_ifs <;> exact ⟨rfl, rfl, rfl, rfl⟩

/-- C5 counterexample: the request issued by `testConnection` carries no
`User-Agent` header at all — it builds its headers inline
(`client.ts` line 32) instead of calling `getHeaders`. -/
theorem C5_counterexample_testConnection_no_user_agent :
    (testConnection initCircuitBreaker (some "key")
        { baseUrl := "http://api", model := "m" }
        (.success { status := 200, bodyChunks := [] }) true).request
      = some { method := "GET", url := "http://api/models",
               headers := [("Authorization", "Bearer key")] } ∧
    ((testConnection initCircuitBreaker (some "key")
        { baseUrl := "http://api", model := "m" }
        (.success { status := 200, bodyChunks := [] }) true).request.map
      (fun r => r.headers.all (fun p => !(p.1 == "User-Agent")))) = some true := by
  exact ⟨rfl, by decide⟩

/-- C5 amended: a missing API key makes all three operations fail with the
configuration error before any network request (for the two
breaker-gated operations, provided the breaker gate — which runs first —
passes); with a key present, every request issued by `createCompletion`
and `createChatCompletion` carries the `Authorization: Bearer` header and
the fixed `User-Agent`, while `testConnection`'s request carries only the
`Authorization: Bearer` header. -/
theorem C5_amended_credentials_and_headers (cb : CircuitBreaker) (now : Nat)
    (k : String) (cfg : Config) (fr : FetchResult) (jv : Bool)
    (hclosed : ¬ now < cb.cooldownUntil) :
    (createCompletion cb now none cfg fr).result = .error .missingApiKey ∧
    (createCompletion cb now none cfg fr).request = none ∧
    (createChatCompletion cb now none cfg fr).result = .error .missingApiKey ∧
    (createChatCompletion cb now none cfg fr).request = none ∧
    (testConnection cb none cfg fr jv).result = .error .missingApiKey ∧
    (testConnection cb none cfg fr jv).request = none ∧
    (∀ r, (createCompletion cb now (some k) cfg fr).request = some r →
      ("Authorization", "Bearer " ++ k) ∈ r.headers ∧
      ("User-Agent", userAgent) ∈ r.headers) ∧
    (∀ r, (createChatCompletion cb now (some k) cfg fr).request = some r →
      ("Authorization", "Bearer " ++ k) ∈ r.headers ∧
      ("User-Agent", userAgent) ∈ r.headers) ∧
    (∀ r, (testConnection cb (some k) cfg fr jv).request = some r →
      ("Authorization", "Bearer " ++ k) ∈ r.headers) := by
  refine ⟨?_, ?_, ?_, ?_, ?_, ?_, ?_, ?_, ?_⟩
  · unfold createCompletion; rw [if_neg hclosed]
  · unfold createCompletion; rw [if_neg hclosed]
  · unfold createChatCompletion; rw [if_neg hclosed]
  · unfold createChatCompletion; rw [if_neg hclosed]
  · rfl
  · rfl
  · intro r hr
    unfold createCompletion at hr
    rw [if_neg hclosed] at hr
    have hh : r.headers = getHeaders k := by
      cases fr with
      | abortError =>
        simp only at hr
        cases hr; rfl
      | success resp =>
        dsimp only at hr
        split_ifs at hr <;> (cases hr; rfl)
    rw [hh]
    unfold getHeaders
    exact ⟨by simp, by simp⟩
  · intro r hr
    unfold createChatCompletion at hr
    rw [if_neg hclosed] at hr
    have hh : r.headers = getHeaders k := by
      cases fr with
      | abortError =>
        simp only at hr
        cases hr; rfl
      | success resp =>
        dsimp only at hr
        split_ifs at hr <;> (cases hr; rfl)
    rw [hh]
    unfold getHeaders
    exact ⟨by simp, by simp⟩
  · intro r hr
    unfold testConnection at hr
    have hh : r.headers = [("Authorization", "Bearer " ++ k)] := by
      cases fr with
      | abortError =>
        simp only at hr
        cases hr; rfl
      | success resp =>
        dsimp only at hr
        split_ifs at hr <;> (cases hr; rfl)
    rw [hh]
    simp

/-- C5 amended, witness: the header theorem applied with a concrete key,
response and closed breaker. -/
theorem C5_amended_credentials_and_headers_witness :
    ¬ (5 : Nat) < initCircuitBreaker.cooldownUntil ∧
    (createCompletion initCircuitBreaker 5 none
      { baseUrl := "b", model := "m" }
      (.success { status := 200, bodyChunks := [] })).request = none :=
  ⟨by decide,
   (C5_amended_credentials_and_headers initCircuitBreaker 5 "key"
      { baseUrl := "b", model := "m" }
      (.success { status := 200, bodyChunks := [] }) true (by decide)).2.1⟩

/-- C3: with the clock unchanged, `setCompletion` followed by
`getCompletion` returns the stored value; and once the clock strictly
exceeds a stored entry's expiry (`now + ttl*1000` at write time),
`getCompletion` returns absent and removes exactly that entry from the
store, leaving every other key untouched. -/
theorem C3_ttl_cache_set_get_and_lazy_eviction :
    (∀ (store : CacheStore) (key v : String) (ttl now : Nat),
      getCompletion (setCompletion store key v ttl now) key now
        = (some v, setCompletion store key v ttl now)) ∧
    (∀ (store : CacheStore) (key : String) (now : Nat)
        (entry : CompletionCacheEntry),
      store (CACHE_PREFIX ++ key) = some entry → entry.expiry < now →
      getCompletion store key now
        = (none, fun kk => if kk = CACHE_PREFIX ++ key then none else store kk)) := by
  constructor
  · intro store key v ttl now
    unfold getCompletion setCompletion
    simp
  · intro store key now entry hhit hexp
    unfold getCompletion
    rw [hhit]
    simp [hexp]

/-- C3 witness: the cache theorem applied to a concrete store holding an
entry that expired at time 5, read at time 6. -/
theorem C3_ttl_cache_witness :
    ((fun k => if k = CACHE_PREFIX ++ "k" then
        some { item := "v", expiry := 5 } else none) : CacheStore)
      (CACHE_PREFIX ++ "k") = some { item := "v", expiry := 5 } ∧
    (5 : Nat) < 6 ∧
    getCompletion
      (fun k => if k = CACHE_PREFIX ++ "k" then
        some { item := "v", expiry := 5 } else none) "k" 6
      = (none, fun kk => if kk = CACHE_PREFIX ++ "k" then none
          else if kk = CACHE_PREFIX ++ "k" then
            some { item := "v", expiry := 5 } else none) :=
  ⟨by simp, by decide,
   C3_ttl_cache_set_get_and_lazy_eviction.2
     (fun k => if k = CACHE_PREFIX ++ "k" then
        some { item := "v", expiry := 5 } else none)
     "k" 6 { item := "v", expiry := 5 } (by simp) (by decide)⟩

/-- C4 counterexample: an input signal that is already aborted at the
moment of merging does not abort the merged signal — `mergeSignals` only
registers `abort` event listeners, and an already-aborted signal never
fires the event again. -/
theorem C4_counterexample_pre_aborted_input_lost :
    signalAborted { preAborted := true, firesLater := false } = true ∧
    mergedSignalAborted { preAborted := true, firesLater := false }
      { preAborted := false, firesLater := false } = false := by
  decide

/-- C4 amended: for input signals that are not yet aborted when
`mergeSignals` registers its listeners, the merged signal is aborted
exactly when either input aborts (first-wins); an input already aborted at
merge time is not propagated. -/
theorem C4_amended_merge_first_wins (s1 s2 : SignalBehavior)
    (h1 : s1.preAborted = false) (h2 : s2.preAborted = false) :
    mergedSignalAborted s1 s2 = (signalAborted s1 || signalAborted s2) := by
  unfold mergedSignalAborted signalAborted
  rw [h1, h2]
  simp

/-- C4 amended, witness: merging two live signals of which the second
fires later yields an aborted merged signal. -/
theorem C4_amended_merge_first_wins_witness :
    ({ preAborted := false, firesLater := false } : SignalBehavior).preAborted = false ∧
    mergedSignalAborted { preAborted := false, firesLater := false }
        { preAborted := false, firesLater := true }
      = (signalAborted { preAborted := false, firesLater := false } ||
         signalAborted { preAborted := false, firesLater := true }) :=
  ⟨rfl, C4_amended_merge_first_wins
    { preAborted := false, firesLater := false }
    { preAborted := false, firesLater := true } rfl rfl⟩

/-- C6: every failure of the fetch inside `fetchCompletion` yields an
empty item list; it is silent (nothing logged) exactly when the failure is
a cancellation (`AbortError`, or a message containing "cancelled" — which
covers the client's mapped "Request timeout or cancelled" error raised by
a superseding request's abort); every other failure is logged and still
yields the empty result. -/
theorem C6_fetch_failures_degrade_to_empty (clean : String → String)
    (e : JsError) :
    (fetchCompletion clean none (.error e)).items = [] ∧
    ((fetchCompletion clean none (.error e)).loggedError = false
      ↔ isCancellation e = true) ∧
    fetchCompletion clean none
        (.error { name := "Error", message := "Request timeout or cancelled" })
      = { items := [], loggedError := false } := by
  refine ⟨?_, ?_, ?_⟩
  · dsimp only [fetchCompletion]
    split_ifs <;> rfl
  · dsimp only [fetchCompletion]
    cases hc : isCancellation e <;> simp [hc]
  · have hc : isCancellation
        { name := "Error", message := "Request timeout or cancelled" } = true := by
      decide
    dsimp only [fetchCompletion]
    rw [if_pos hc]

/-! ## Debounce helper lemma -/

theorem debounce_not_settled_aux (j : Nat) (evs : List DebounceEvent) :
    ∀ st : DebounceState, st.pendingTimer ≠ some j → j ∉ st.settled →
      DebounceEvent.trigger j ∉ evs →
      j ∉ (debounceRun st evs).settled ∧
        (debounceRun st evs).pendingTimer ≠ some j := by
  induction evs with
  | nil => intro st h1 h2 _; exact ⟨h2, h1⟩
  | cons e rest ih =>
    intro st h1 h2 h3
    have hrun : debounceRun st (e :: rest) = debounceRun (debounceStep st e) rest := rfl
    rw [hrun]
    have hnotin : DebounceEvent.trigger j ∉ rest := fun hm => h3 (List.mem_cons_of_mem _ hm)
    apply ih
    · cases e with
      | trigger id =>
        have hid : id ≠ j := by
          intro hidj
          exact h3 (by rw [hidj]; exact List.mem_cons_self _ _)
        simp only [debounceStep]
        intro hc
        exact hid (Option.some.inj hc)
      | timerFire =>
        simp only [debounceStep]
        cases hp : st.pendingTimer with
        | none => exact h1
        | some id => simp
    · cases e with
      | trigger id => exact h2
      | timerFire =>
        simp only [debounceStep]
        cases hp : st.pendingTimer with
        | none => exact h2
        | some id =>
          simp only [List.mem_cons]
          intro hc
          cases hc with
          | inl hji => exact h1 (by rw [hp, hji])
          | inr hmem => exact h2 hmem
    · exact hnotin

/-- C10: when an automatic trigger `k` supersedes the armed debounce timer
of trigger `j` (clearing it before it ever fires), the promise created for
`j` never settles: its timeout callback — the only holder of its resolver,
and the executor never rejects — can no longer run, so no later event
sequence ever settles `j`. -/
theorem C10_superseded_promise_never_settles (st : DebounceState)
    (j k : Nat) (evs : List DebounceEvent)
    (_harmed : st.pendingTimer = some j) (hunsettled : j ∉ st.settled)
    (hk : k ≠ j) (hnorearm : DebounceEvent.trigger j ∉ evs) :
    j ∉ (debounceRun st (DebounceEvent.trigger k :: evs)).settled := by
  have h := debounce_not_settled_aux j evs
    (debounceStep st (DebounceEvent.trigger k)) ?_ ?_ hnorearm
  · exact h.1
  · simp only [debounceStep]
    intro hc
    exact hk (Option.some.inj hc)
  · exact hunsettled

/-- C10 witness: trigger 1 is superseded by trigger 2; the timer then
fires (settling 2) and trigger 3 fires after its own timer; promise 1
never settles. -/
theorem C10_superseded_promise_never_settles_witness :
    (1 : Nat) ∉ (debounceRun { pendingTimer := some 1, settled := [] }
      [DebounceEvent.trigger 2, DebounceEvent.timerFire,
       DebounceEvent.trigger 3, DebounceEvent.timerFire]).settled :=
  C10_superseded_promise_never_settles
    { pendingTimer := some 1, settled := [] } 1 2
    [DebounceEvent.timerFire, DebounceEvent.trigger 3, DebounceEvent.timerFire]
    rfl (by simp) (by decide) (by decide)

/-- C1: from the initial closed state, four qualifying failures leave the
breaker closed (`cooldownUntil = 0`); the fifth (= `maxFailures`)
qualifying failure reported through `handleFailure` sets
`cooldownUntil = t5 + 60000`, after which — for as long as the current
time is before `cooldownUntil` — both `createCompletion` and
`createChatCompletion` fail immediately with the cooling-down
(circuit-open) error, with no network request issued and the breaker
unchanged; and a single successful response while the gate passes resets
the failure counter to 0. -/
theorem C1_circuit_breaker_trips_and_resets
    (s1 t1 s2 t2 s3 t3 s4 t4 s5 t5 : Nat)
    (q1 : qualifyingFailure s1 = true) (q2 : qualifyingFailure s2 = true)
    (q3 : qualifyingFailure s3 = true) (q4 : qualifyingFailure s4 = true)
    (q5 : qualifyingFailure s5 = true) :
    (handleFailure (handleFailure (handleFailure
        (handleFailure initCircuitBreaker s1 t1) s2 t2) s3 t3) s4 t4)
      = { failures := 4, cooldownUntil := 0, maxFailures := 5, cooldownMs := 60000 } ∧
    (handleFailure (handleFailure (handleFailure (handleFailure
        (handleFailure initCircuitBreaker s1 t1) s2 t2) s3 t3) s4 t4) s5 t5)
      = { failures := 5, cooldownUntil := t5 + 60000,
          maxFailures := 5, cooldownMs := 60000 } ∧
    (∀ (now : Nat) (apiKey : Option String) (cfg : Config) (fr : FetchResult),
      now < t5 + 60000 →
      createCompletion
          { failures := 5, cooldownUntil := t5 + 60000,
            maxFailures := 5, cooldownMs := 60000 } now apiKey cfg fr
        = { result := .error .circuitOpen,
            breaker := { failures := 5, cooldownUntil := t5 + 60000,
                         maxFailures := 5, cooldownMs := 60000 },
            request := none }) ∧
    (∀ (now : Nat) (apiKey : Option String) (cfg : Config) (fr : FetchResult),
      now < t5 + 60000 →
      createChatCompletion
          { failures := 5, cooldownUntil := t5 + 60000,
            maxFailures := 5, cooldownMs := 60000 } now apiKey cfg fr
        = { result := .error .circuitOpen,
            breaker := { failures := 5, cooldownUntil := t5 + 60000,
                         maxFailures := 5, cooldownMs := 60000 },
            request := none }) ∧
    (∀ (cb : CircuitBreaker) (now : Nat) (k : String) (cfg : Config)
        (resp : HttpResponse),
      ¬ now < cb.cooldownUntil → responseOk resp = true →
      (createCompletion cb now (some k) cfg (.success resp)).breaker.failures = 0) := by
  have e1 : handleFailure initCircuitBreaker s1 t1
      = { failures := 1, cooldownUntil := 0, maxFailures := 5, cooldownMs := 60000 } := by
    unfold handleFailure initCircuitBreaker
    rw [if_pos q1]
    norm_num
  have e2 : handleFailure
      ({ failures := 1, cooldownUntil := 0, maxFailures := 5, cooldownMs := 60000 }
        : CircuitBreaker) s2 t2
      = { failures := 2, cooldownUntil := 0, maxFailures := 5, cooldownMs := 60000 } := by
    unfold handleFailure
    rw [if_pos q2]
    norm_num
  have e3 : handleFailure
      ({ failures := 2, cooldownUntil := 0, maxFailures := 5, cooldownMs := 60000 }
        : CircuitBreaker) s3 t3
      = { failures := 3, cooldownUntil := 0, maxFailures := 5, cooldownMs := 60000 } := by
    unfold handleFailure
    rw [if_pos q3]
    norm_num
  have e4 : handleFailure
      ({ failures := 3, cooldownUntil := 0, maxFailures := 5, cooldownMs := 60000 }
        : CircuitBreaker) s4 t4
      = { failures := 4, cooldownUntil := 0, maxFailures := 5, cooldownMs := 60000 } := by
    unfold handleFailure
    rw [if_pos q4]
    norm_num
  have e5 : handleFailure
      ({ failures := 4, cooldownUntil := 0, maxFailures := 5, cooldownMs := 60000 }
        : CircuitBreaker) s5 t5
      = { failures := 5, cooldownUntil := t5 + 60000,
          maxFailures := 5, cooldownMs := 60000 } := by
    unfold handleFailure
    rw [if_pos q5]
    norm_num
  refine ⟨?_, ?_, ?_, ?_, ?_⟩
  · rw [e1, e2, e3, e4]
  · rw [e1, e2, e3, e4, e5]
  · intro now apiKey cfg fr h
    unfold createCompletion
    dsimp only
    rw [if_pos h]
  · intro now apiKey cfg fr h
    unfold createChatCompletion
    dsimp only
    rw [if_pos h]
  · intro cb now k cfg resp hgate hok
    unfold createCompletion
    rw [if_neg hgate]
    dsimp only
    rw [if_pos hok]

/-- C1 witness: five HTTP-500 failures at times 1..5 trip the breaker;
at time 100 (within the cooldown window) `createCompletion` is rejected
without network I/O; and a 200 response resets the counter. -/
theorem C1_circuit_breaker_trips_and_resets_witness :
    qualifyingFailure 500 = true ∧
    (handleFailure (handleFailure (handleFailure (handleFailure
        (handleFailure initCircuitBreaker 500 1) 500 2) 500 3) 500 4) 500 5)
      = { failures := 5, cooldownUntil := 5 + 60000,
          maxFailures := 5, cooldownMs := 60000 } ∧
    createCompletion
        { failures := 5, cooldownUntil := 5 + 60000,
          maxFailures := 5, cooldownMs := 60000 } 100 (some "k")
        { baseUrl := "b", model := "m" }
        (.success { status := 200, bodyChunks := [] })
      = { result := .error .circuitOpen,
          breaker := { failures := 5, cooldownUntil := 5 + 60000,
                       maxFailures := 5, cooldownMs := 60000 },
          request := none } ∧
    (createCompletion
        { failures := 3, cooldownUntil := 0, maxFailures := 5, cooldownMs := 60000 }
        7 (some "k") { baseUrl := "b", model := "m" }
        (.success { status := 200, bodyChunks := [] })).breaker.failures = 0 :=
  ⟨by decide,
   (C1_circuit_breaker_trips_and_resets 500 1 500 2 500 3 500 4 500 5
      (by decide) (by decide) (by decide) (by decide) (by decide)).2.1,
   (C1_circuit_breaker_trips_and_resets 500 1 500 2 500 3 500 4 500 5
      (by decide) (by decide) (by decide) (by decide) (by decide)).2.2.1
     100 (some "k") { baseUrl := "b", model := "m" }
     (.success { status := 200, bodyChunks := [] }) (by decide),
   (C1_circuit_breaker_trips_and_resets 500 1 500 2 500 3 500 4 500 5
      (by decide) (by decide) (by decide) (by decide) (by decide)).2.2.2.2
     { failures := 3, cooldownUntil := 0, maxFailures := 5, cooldownMs := 60000 }
     7 "k" { baseUrl := "b", model := "m" }
     { status := 200, bodyChunks := [] } (by decide) (by decide)⟩

/-! ## SSE chunk-boundary independence (C2 machinery) -/

theorem consHead_ne_nil (c : Char) (M : List (List Char)) : consHead c M ≠ [] := by
  cases M <;> simp [consHead]

theorem splitAll_eq_nil : splitAll [] = [[]] := rfl

theorem splitAll_eq_newline (r : List Char) :
    splitAll ('\n' :: r) = [] :: splitAll r := by
  rw [splitAll.eq_def]
  simp

theorem splitAll_eq_crlf (r : List Char) :
    splitAll ('\x0d' :: '\n' :: r) = [] :: splitAll r := by
  rw [splitAll.eq_def]
  simp

theorem splitAll_eq_cr_nil : splitAll ['\x0d'] = [['\x0d']] := by
  rw [splitAll.eq_def]
  simp
  rw [splitAll_eq_nil]
  simp [consHead]

theorem splitAll_eq_cr_cons (c : Char) (r : List Char) (hc : ¬ c = '\n') :
    splitAll ('\x0d' :: c :: r) = consHead '\x0d' (splitAll (c :: r)) := by
  rw [splitAll.eq_def]
  simp [hc]

theorem splitAll_eq_other (c : Char) (r : List Char) (h1 : ¬ c = '\n')
    (h2 : ¬ c = '\x0d') :
    splitAll (c :: r) = consHead c (splitAll r) := by
  rw [splitAll.eq_def]
  simp only [if_neg h1, if_neg h2]

theorem splitAll_ne_nil (l : List Char) : splitAll l ≠ [] := by
  induction l using splitAll.induct with
  | case1 => simp [splitAll_eq_nil]
  | case2 r ih => rw [splitAll_eq_newline]; simp
  | case3 h ih => rw [splitAll_eq_cr_nil]; simp
  | case4 r h ih => rw [splitAll_eq_crlf]; simp
  | case5 c r hc hr ih => rw [splitAll_eq_cr_cons c r hc]; exact consHead_ne_nil _ _
  | case6 c r h1 h2 ih => rw [splitAll_eq_other c r h1 h2]; exact consHead_ne_nil _ _

theorem mem_splitAll_no_newline (l : List Char) :
    ∀ seg ∈ splitAll l, '\n' ∉ seg := by
  induction l using splitAll.induct with
  | case1 =>
    intro seg hs
    rw [splitAll_eq_nil] at hs
    simp at hs
    simp [hs]
  | case2 r ih =>
    intro seg hs
    rw [splitAll_eq_newline] at hs
    rcases List.mem_cons.mp hs with h | h
    · simp [h]
    · exact ih seg h
  | case3 h ih =>
    intro seg hs
    rw [splitAll_eq_cr_nil] at hs
    simp at hs
    subst hs
    decide
  | case4 r h ih =>
    intro seg hs
    rw [splitAll_eq_crlf] at hs
    rcases List.mem_cons.mp hs with h2 | h2
    · simp [h2]
    · exact ih seg h2
  | case5 c r hc hr ih =>
    intro seg hs
    rw [splitAll_eq_cr_cons c r hc] at hs
    cases hm : splitAll (c :: r) with
    | nil => exact absurd hm (splitAll_ne_nil _)
    | cons m M =>
      rw [hm] at hs
      simp only [consHead] at hs
      rcases List.mem_cons.mp hs with h2 | h2
      · subst h2
        intro hmem
        rcases List.mem_cons.mp hmem with h3 | h3
        · exact (by decide : ¬ ('\n' : Char) = '\x0d') h3
        · exact ih m (by rw [hm]; exact List.mem_cons_self m M) h3
      · exact ih seg (by rw [hm]; exact List.mem_cons_of_mem m h2)
  | case6 c r h1 h2 ih =>
    intro seg hs
    rw [splitAll_eq_other c r h1 h2] at hs
    cases hm : splitAll r with
    | nil => exact absurd hm (splitAll_ne_nil _)
    | cons m M =>
      rw [hm] at hs
      simp only [consHead] at hs
      rcases List.mem_cons.mp hs with h2 | h2
      · subst h2
        intro hmem
        rcases List.mem_cons.mp hmem with h3 | h3
        · exact h1 h3.symm
        · exact ih m (by rw [hm]; exact List.mem_cons_self m M) h3
      · exact ih seg (by rw [hm]; exact List.mem_cons_of_mem m h2)

theorem splitAll_of_no_newline (l : List Char) :
    '\n' ∉ l → splitAll l = [l] := by
  induction l using splitAll.induct with
  | case1 => intro _; rfl
  | case2 r ih => intro h; simp at h
  | case3 hne ih => intro _; exact splitAll_eq_cr_nil
  | case4 r hne ih => intro h; simp at h
  | case5 c r hc hr ih =>
    intro h
    have hr2 : '\n' ∉ (c :: r) := fun hm => h (List.mem_cons_of_mem _ hm)
    rw [splitAll_eq_cr_cons c r hc, ih hr2]
    rfl
  | case6 c r h1 h2 ih =>
    intro h
    have hr2 : '\n' ∉ r := fun hm => h (List.mem_cons_of_mem _ hm)
    rw [splitAll_eq_other c r h1 h2, ih hr2]
    rfl

theorem splitAll_append_newline (rest : List Char) (buf : List Char) :
    '\n' ∉ buf →
    splitAll (buf ++ '\n' :: rest) = stripCR buf :: splitAll rest := by
  induction buf using splitAll.induct with
  | case1 =>
    intro _
    rw [List.nil_append, splitAll_eq_newline]
    rfl
  | case2 r ih => intro hb; simp at hb
  | case3 hne ih =>
    intro _
    rw [List.cons_append, List.nil_append, splitAll_eq_crlf]
    rfl
  | case4 r hne ih => intro hb; simp at hb
  | case5 c r hc hr ih =>
    intro hb
    have hb2 : '\n' ∉ (c :: r) := fun hm => hb (List.mem_cons_of_mem _ hm)
    rw [List.cons_append, List.cons_append,
      splitAll_eq_cr_cons c (r ++ '\n' :: rest) hc,
      ← List.cons_append, ih hb2]
    have hst : stripCR ('\x0d' :: c :: r) = '\x0d' :: stripCR (c :: r) := by
      simp [stripCR]
    rw [hst]
    rfl
  | case6 c r h1 h2 ih =>
    intro hb
    have hb2 : '\n' ∉ r := fun hm => hb (List.mem_cons_of_mem _ hm)
    rw [List.cons_append, splitAll_eq_other c (r ++ '\n' :: rest) h1 h2, ih hb2]
    cases r with
    | nil => simp [consHead, stripCR, h2]
    | cons c2 r2 => simp [consHead, stripCR]

theorem processLine_buffer (st : SSEState) (b : List Char) (line : List Char) :
    processLine { st with buffer := b } line
      = { processLine st line with buffer := b } := by
  obtain ⟨buf, out, fin⟩ := st
  cases fin with
  | true => rfl
  | false =>
    have hfalse : ¬ (false = true) := by simp
    unfold processLine
    dsimp only
    rw [if_neg hfalse, if_neg hfalse]
    by_cases h1 : List.take 6 line = dataPrefix
    · rw [if_pos h1, if_pos h1]
      by_cases h2 : List.drop 6 line = doneSentinel
      · rw [if_pos h2, if_pos h2]
      · rw [if_neg h2, if_neg h2]
        cases hj : parseJson (List.drop 6 line) with
        | none => rfl
        | some j =>
          dsimp only
          by_cases h3 : extractContent j = []
          · rw [if_pos h3, if_pos h3]
          · rw [if_neg h3, if_neg h3]
    · rw [if_neg h1, if_neg h1]

theorem foldl_processLine_buffer (lines : List (List Char)) :
    ∀ (st : SSEState) (b : List Char),
      List.foldl processLine { st with buffer := b } lines
        = { List.foldl processLine st lines with buffer := b } := by
  induction lines with
  | nil => intro st b; rfl
  | cons l ls ih =>
    intro st b
    simp only [List.foldl_cons]
    rw [processLine_buffer]
    exact ih (processLine st l) b

theorem processLine_finished (st : SSEState) (line : List Char)
    (h : st.finished = true) : processLine st line = st := by
  unfold processLine
  rw [if_pos h]

theorem foldl_processLine_finished (lines : List (List Char)) :
    ∀ st : SSEState, st.finished = true → List.foldl processLine st lines = st := by
  induction lines with
  | nil => intro st _; rfl
  | cons l ls ih =>
    intro st h
    simp only [List.foldl_cons, processLine_finished st l h]
    exact ih st h

theorem feedChunk_finished (st : SSEState) (chunk : List Char)
    (h : st.finished = true) : feedChunk st chunk = st := by
  unfold feedChunk
  rw [if_pos h]

theorem charStep_finished (st : SSEState) (ch : Char)
    (h : st.finished = true) : charStep st ch = st := by
  unfold charStep
  rw [if_pos h]

theorem foldl_charStep_finished (l : List Char) :
    ∀ st : SSEState, st.finished = true → List.foldl charStep st l = st := by
  induction l with
  | nil => intro st _; rfl
  | cons ch l ih =>
    intro st h
    simp only [List.foldl_cons, charStep_finished st ch h]
    exact ih st h

theorem lastSeg_mem : ∀ (M : List (List Char)), M ≠ [] → lastSeg M ∈ M := by
  intro M
  induction M with
  | nil => intro h; exact absurd rfl h
  | cons a M ih =>
    intro _
    cases M with
    | nil => simp [lastSeg]
    | cons b M2 =>
      rw [show lastSeg (a :: b :: M2) = lastSeg (b :: M2) from rfl]
      exact List.mem_cons_of_mem a (ih (by simp))

theorem splitAll_lastSeg_no_newline (l : List Char) :
    '\n' ∉ lastSeg (splitAll l) :=
  mem_splitAll_no_newline l _ (lastSeg_mem _ (splitAll_ne_nil l))

theorem feedChunk_buffer_no_newline (st : SSEState) (chunk : List Char)
    (hb : '\n' ∉ st.buffer) : '\n' ∉ (feedChunk st chunk).buffer := by
  unfold feedChunk
  split_ifs with h
  · exact hb
  · dsimp only
    rw [foldl_processLine_buffer]
    exact splitAll_lastSeg_no_newline _

theorem charStep_buffer_no_newline (st : SSEState) (ch : Char)
    (hb : '\n' ∉ st.buffer) : '\n' ∉ (charStep st ch).buffer := by
  unfold charStep
  split_ifs with h1 h2
  · exact hb
  · simp
  · dsimp only
    simp only [List.mem_append, List.mem_singleton]
    rintro (hc | hc)
    · exact hb hc
    · exact h2 hc.symm

theorem sseEquiv_refl (s : SSEState) : sseEquiv s s := ⟨rfl, rfl, fun _ => rfl⟩

theorem sseEquiv_of_eq {s1 s2 : SSEState} (h : s1 = s2) : sseEquiv s1 s2 :=
  h ▸ sseEquiv_refl s1

theorem sseEquiv_symm {s1 s2 : SSEState} (h : sseEquiv s1 s2) : sseEquiv s2 s1 :=
  ⟨h.1.symm, h.2.1.symm, fun hf => (h.2.2 (h.2.1.trans hf)).symm⟩

theorem sseEquiv_trans {s1 s2 s3 : SSEState} (h1 : sseEquiv s1 s2)
    (h2 : sseEquiv s2 s3) : sseEquiv s1 s3 :=
  ⟨h1.1.trans h2.1, h1.2.1.trans h2.2.1,
   fun hf => (h1.2.2 hf).trans (h2.2.2 (h1.2.1.symm.trans hf))⟩

theorem sseEquiv_eq_of_not_finished {s1 s2 : SSEState} (h : sseEquiv s1 s2)
    (hf : s1.finished = false) : s1 = s2 := by
  obtain ⟨b1, o1, f1⟩ := s1
  obtain ⟨b2, o2, f2⟩ := s2
  obtain ⟨ho, hfin, hbuf⟩ := h
  simp only at ho hfin hf
  subst ho hfin hf
  simp only at hbuf
  rw [hbuf trivial]

theorem charStep_equiv {s1 s2 : SSEState} (h : sseEquiv s1 s2) (ch : Char) :
    sseEquiv (charStep s1 ch) (charStep s2 ch) := by
  cases hf : s1.finished with
  | false =>
    rw [sseEquiv_eq_of_not_finished h hf]
    exact sseEquiv_refl _
  | true =>
    have hf2 : s2.finished = true := by rw [← h.2.1]; exact hf
    rw [charStep_finished s1 ch hf, charStep_finished s2 ch hf2]
    exact h

theorem foldl_charStep_equiv (l : List Char) :
    ∀ {s1 s2 : SSEState}, sseEquiv s1 s2 →
      sseEquiv (List.foldl charStep s1 l) (List.foldl charStep s2 l) := by
  induction l with
  | nil => intro s1 s2 h; exact h
  | cons ch l ih => intro s1 s2 h; exact ih (charStep_equiv h ch)

/-- Absorbing the first character of a chunk into the state: the chunk
machine and the character machine agree observationally. -/
theorem feedChunk_cons_equiv (st : SSEState) (ch : Char) (chunk : List Char)
    (hb : '\n' ∉ st.buffer) :
    sseEquiv (feedChunk st (ch :: chunk)) (feedChunk (charStep st ch) chunk) := by
  cases hf : st.finished with
  | true =>
    rw [feedChunk_finished st _ hf, charStep_finished st ch hf,
      feedChunk_finished st chunk hf]
    exact sseEquiv_refl st
  | false =>
    by_cases hch : ch = '\n'
    · subst hch
      have hcs : charStep st '\n'
          = { processLine st (stripCR st.buffer) with buffer := [] } := by
        unfold charStep
        rw [if_neg (by simp [hf]), if_pos rfl]
      have hsp : splitAll (st.buffer ++ '\n' :: chunk)
          = stripCR st.buffer :: splitAll chunk :=
        splitAll_append_newline chunk st.buffer hb
      obtain ⟨m, M, hM⟩ : ∃ m M, splitAll chunk = m :: M := by
        cases hc : splitAll chunk with
        | nil => exact absurd hc (splitAll_ne_nil chunk)
        | cons m M => exact ⟨m, M, rfl⟩
      have hlhs : feedChunk st ('\n' :: chunk)
          = { List.foldl processLine (processLine st (stripCR st.buffer))
                ((m :: M).dropLast) with buffer := lastSeg (m :: M) } := by
        unfold feedChunk
        rw [if_neg (by simp [hf])]
        dsimp only
        rw [hsp, hM]
        rw [show (stripCR st.buffer :: m :: M).dropLast
            = stripCR st.buffer :: (m :: M).dropLast from rfl]
        rw [show lastSeg (stripCR st.buffer :: m :: M) = lastSeg (m :: M) from rfl]
        rw [List.foldl_cons, processLine_buffer, foldl_processLine_buffer]
      cases hf2 : (processLine st (stripCR st.buffer)).finished with
      | true =>
        rw [hlhs, hcs, feedChunk_finished _ chunk (by simp [hf2])]
        rw [foldl_processLine_finished _ _ hf2]
        exact ⟨rfl, rfl, fun hcontra => absurd hcontra (by simp [hf2])⟩
      | false =>
        apply sseEquiv_of_eq
        rw [hlhs, hcs]
        unfold feedChunk
        rw [if_neg (by simp [hf2])]
        dsimp only
        rw [show ([] : List Char) ++ chunk = chunk from rfl, hM]
        rw [foldl_processLine_buffer ((m :: M).dropLast)
          (processLine st (stripCR st.buffer)) (lastSeg (m :: M))]
    · apply sseEquiv_of_eq
      have hcs : charStep st ch = { st with buffer := st.buffer ++ [ch] } := by
        unfold charStep
        rw [if_neg (by simp [hf]), if_neg hch]
      rw [hcs]
      unfold feedChunk
      rw [if_neg (by simp [hf]), if_neg (by simp [hf])]
      dsimp only
      rw [List.append_assoc]
      rfl

/-- The chunk machine is observationally the fold of the character
machine: the SSE parse depends only on the concatenated input. -/
theorem feedChunk_equiv_charFold (chunk : List Char) :
    ∀ st : SSEState, '\n' ∉ st.buffer →
      sseEquiv (feedChunk st chunk) (List.foldl charStep st chunk) := by
  induction chunk with
  | nil =>
    intro st hb
    cases hf : st.finished with
    | true =>
      rw [feedChunk_finished st [] hf]
      exact sseEquiv_refl st
    | false =>
      apply sseEquiv_of_eq
      unfold feedChunk
      rw [if_neg (by simp [hf])]
      dsimp only
      rw [List.append_nil, splitAll_of_no_newline st.buffer hb]
      rfl
  | cons ch chunk ih =>
    intro st hb
    exact sseEquiv_trans (feedChunk_cons_equiv st ch chunk hb)
      (ih (charStep st ch) (charStep_buffer_no_newline st ch hb))

/-- Parsing three chunks is observationally the same as parsing their
concatenation in one chunk. -/
theorem runSSE_three_chunks_equiv (c1 c2 c3 : List Char) :
    sseEquiv (runSSE [c1, c2, c3]) (runSSE [c1 ++ c2 ++ c3]) := by
  have hb0 : '\n' ∉ (initSSEState).buffer := by simp [initSSEState]
  have hbA : '\n' ∉ (feedChunk initSSEState c1).buffer :=
    feedChunk_buffer_no_newline _ _ hb0
  have hbB : '\n' ∉ (feedChunk (feedChunk initSSEState c1) c2).buffer :=
    feedChunk_buffer_no_newline _ _ hbA
  have e1 : sseEquiv (feedChunk initSSEState c1)
      (List.foldl charStep initSSEState c1) :=
    feedChunk_equiv_charFold c1 initSSEState hb0
  have e2 : sseEquiv (feedChunk (feedChunk initSSEState c1) c2)
      (List.foldl charStep initSSEState (c1 ++ c2)) := by
    refine sseEquiv_trans (feedChunk_equiv_charFold c2 _ hbA) ?_
    rw [List.foldl_append]
    exact foldl_charStep_equiv c2 e1
  have e3 : sseEquiv (feedChunk (feedChunk (feedChunk initSSEState c1) c2) c3)
      (List.foldl charStep initSSEState (c1 ++ c2 ++ c3)) := by
    refine sseEquiv_trans (feedChunk_equiv_charFold c3 _ hbB) ?_
    rw [List.foldl_append]
    exact foldl_charStep_equiv c3 e2
  have e4 : sseEquiv (feedChunk initSSEState (c1 ++ c2 ++ c3))
      (List.foldl charStep initSSEState (c1 ++ c2 ++ c3)) :=
    feedChunk_equiv_charFold _ _ hb0
  exact sseEquiv_trans e3 (sseEquiv_symm e4)

set_option maxRecDepth 4000 in
/-- The whole body delivered as a single chunk yields exactly the two
fragments and terminates at the `[DONE]` sentinel. -/
theorem sseBody_single_chunk_parse :
    (runSSE [sseBody.toList]).outputs = ["ab".toList, "cd".toList] ∧
    (runSSE [sseBody.toList]).finished = true := by
  decide

/-- C2: for every way of splitting the three-record SSE body (two content
deltas "ab", "cd", then `data: [DONE]`, each followed by a blank line)
into three chunks, the parser yields exactly the fragments "ab", "cd" and
terminates cleanly at the `[DONE]` sentinel — the output is independent of
where the chunk boundaries fall. -/
theorem C2_sse_chunk_boundary_independence (c1 c2 c3 : List Char)
    (h : c1 ++ c2 ++ c3 = sseBody.toList) :
    (runSSE [c1, c2, c3]).outputs = ["ab".toList, "cd".toList] ∧
    (runSSE [c1, c2, c3]).finished = true := by
  have he := runSSE_three_chunks_equiv c1 c2 c3
  rw [h] at he
  exact ⟨he.1.trans sseBody_single_chunk_parse.1,
    he.2.1.trans sseBody_single_chunk_parse.2⟩

set_option maxRecDepth 4000 in
/-- C2 witness: the boundary-independence theorem applied at a concrete
split of the body into chunks of 17, 40 and 53 bytes — the first boundary
falls inside the first JSON record, the second inside the second. -/
theorem C2_sse_chunk_boundary_independence_witness :
    (sseBody.toList.take 17) ++ ((sseBody.toList.drop 17).take 40)
        ++ ((sseBody.toList.drop 17).drop 40) = sseBody.toList ∧
    (runSSE [sseBody.toList.take 17, (sseBody.toList.drop 17).take 40,
        (sseBody.toList.drop 17).drop 40]).outputs
      = ["ab".toList, "cd".toList] :=
  ⟨by decide,
   (C2_sse_chunk_boundary_independence (sseBody.toList.take 17)
      ((sseBody.toList.drop 17).take 40) ((sseBody.toList.drop 17).drop 40)
      (by decide)).1⟩

end MyAICopilot
